import Mathlib

/-!
Shallow embedding of the `openai_quick` repository: the `OpenAIClient`
wrapper (`openai_app.py`) and the interactive chat loop of
`openai_examples.py` (`interactive_chat`), together with theorems settling
the specification's claims about them.

The remote OpenAI service is modelled as an oracle parameter: a function
from the conversation sent to the service to either a reply (the content
of `response.choices[0].message.content`) or a failure (the exception
raised by the underlying call, carried as its message).
-/

namespace OpenAIQuick

/-- Roles of chat messages, from the literal role strings used in
`openai_examples.py` ("system", "user", "assistant"). -/
inductive Role
  | system
  | user
  | assistant
  deriving DecidableEq, Repr

/-- One transcript entry: a role-tagged message, as the dictionaries
`\x7b"role": ..., "content": ...\x7d` built by `interactive_chat`. -/
structure Turn where
  role : Role
  content : String
  deriving DecidableEq, Repr

/-- The system turn installed at session start
(`interactive_chat`, line 117-119). -/
def systemTurn : Turn :=
  { role := Role.system, content := "You are a helpful assistant." }

/-- The initial conversation of `interactive_chat`: exactly the system turn. -/
def initialConversation : List Turn := [systemTurn]

/-- Whether the `while True` loop of `interactive_chat` is still running
(`Active`) or has been left through `break` (`Terminated`). -/
inductive Mode
  | Active
  | Terminated
  deriving DecidableEq, Repr

/-- The loop state of `interactive_chat`: the mode together with the
`conversation` list. -/
structure SessionState where
  mode : Mode
  conversation : List Turn
  deriving DecidableEq, Repr

/-- Outcome of one call to `ai_client.chat_completion(conversation)` plus the
extraction `response.choices[0].message.content`: either the assistant reply
or the raised exception's message. -/
inductive ChatResult
  | ok (reply : String)
  | err (msg : String)
  deriving DecidableEq, Repr

/-- True when the call succeeded. -/
def ChatResult.isOk : ChatResult → Bool
  | ChatResult.ok _ => true
  | ChatResult.err _ => false

/-- True when the call raised. -/
def ChatResult.isErr : ChatResult → Bool
  | ChatResult.ok _ => false
  | ChatResult.err _ => true

/-- Python `str.strip()` with no argument: remove leading and trailing
whitespace. Written structurally over the character list so that concrete
inputs evaluate inside the kernel. -/
def pyStrip (s : String) : String :=
  ⟨((s.data.dropWhile Char.isWhitespace).reverse.dropWhile
      Char.isWhitespace).reverse⟩

/-- Python `str.lower()`, restricted to the ASCII case folding that the
command words of `interactive_chat` exercise. -/
def pyLower (s : String) : String :=
  ⟨s.data.map Char.toLower⟩

/-- Test of line 124: `user_input.lower() in ['quit', 'exit', 'q']`. -/
def isQuitCmd (s : String) : Bool :=
  pyLower s == "quit" || pyLower s == "exit" || pyLower s == "q"

/-- Test of line 127: `user_input.lower() == 'clear'`. -/
def isClearCmd (s : String) : Bool :=
  pyLower s == "clear"

/-- `conversation.append(t)`: the transcript-append operation used by
`interactive_chat` (lines 134 and 140). -/
def appendTurn (T : List Turn) (t : Turn) : List Turn := T ++ [t]

/-- Everything one iteration of the loop body produces: the new loop state,
the result of the remote call if one was made, and what was printed
(the assistant reply or the `Error: ...` message). -/
structure StepResult where
  state : SessionState
  callResult : Option ChatResult
  emittedAssistant : Option String
  emittedError : Option String
  deriving DecidableEq, Repr

/-- One iteration of the loop body of `interactive_chat` (lines 121-142) on
the raw line read from standard input. In `Terminated` mode the loop has been
left, so no input is processed. In `Active` mode the line is stripped, the
quit commands are checked first, then `clear`, then emptiness; any other text
is appended as a user turn and the conversation is dispatched to the remote
service, whose outcome the oracle decides. -/
def step (oracle : List Turn → ChatResult) (st : SessionState)
    (rawInput : String) : StepResult :=
  match st.mode with
  | Mode.Terminated => ⟨st, none, none, none⟩
  | Mode.Active =>
    let userInput := pyStrip rawInput
    if isQuitCmd userInput then
      ⟨⟨Mode.Terminated, st.conversation⟩, none, none, none⟩
    else if isClearCmd userInput then
      ⟨⟨Mode.Active, initialConversation⟩, none, none, none⟩
    else if userInput == "" then
      ⟨st, none, none, none⟩
    else
      let conv := appendTurn st.conversation ⟨Role.user, userInput⟩
      match oracle conv with
      | ChatResult.ok reply =>
          ⟨⟨Mode.Active, appendTurn conv ⟨Role.assistant, reply⟩⟩,
            some (ChatResult.ok reply), some reply, none⟩
      | ChatResult.err msg =>
          ⟨⟨Mode.Active, conv⟩, some (ChatResult.err msg), none, some msg⟩

/-- Run the loop over a list of input lines, accumulating the results of all
remote calls made, in order. -/
def runTrace (oracle : List Turn → ChatResult) :
    List String → SessionState → List ChatResult → SessionState × List ChatResult
  | [], st, acc => (st, acc)
  | i :: rest, st, acc =>
      let r := step oracle st i
      runTrace oracle rest r.state (acc ++ r.callResult.toList)

/-- Number of turns of a given role in a conversation. -/
def countRole (r : Role) (conv : List Turn) : Nat :=
  (conv.filter (fun t => t.role == r)).length

/-- Number of failed remote calls among the recorded call results. -/
def countFailures (results : List ChatResult) : Nat :=
  (results.filter ChatResult.isErr).length

/-- The specification's notion for claim C1: the number of consecutive
failures at the end of the call history, i.e. since the last success. -/
def consecFailuresSinceLastSuccess (results : List ChatResult) : Nat :=
  (results.reverse.takeWhile ChatResult.isErr).length

/-- Transcript well-formedness: the first element is the system turn fixed at
session start and no later turn carries the system role. -/
def transcriptWF (conv : List Turn) : Prop :=
  conv.head? = some systemTurn ∧ ∀ t ∈ conv.tail, t.role ≠ Role.system

/-- Python truthiness of `api_key or os.getenv('OPENAI_API_KEY')`
(`openai_app.py`, line 45): the first operand if it is a non-empty string,
otherwise the second operand. -/
def pyStrOr (a b : Option String) : Option String :=
  match a with
  | some s => if s == "" then b else some s
  | none => b

/-- Python falsiness of an optional string: `None` or the empty string. -/
def pyFalsy : Option String → Bool
  | none => true
  | some s => s == ""

/-- The error raised by `OpenAIClient.__init__` when no key is available
(the spec's `ConfigurationError`; a `ValueError` in the source). -/
inductive ConfigError
  | missingApiKey
  deriving DecidableEq, Repr

/-- The constructed client: it owns the resolved API key. -/
structure OpenAIClientState where
  apiKey : String
  deriving DecidableEq, Repr

/-- Side effects of construction. `createTransport` is the build of the
underlying SDK handle `OpenAI(api_key=...)` (line 49), the only constructor
step that touches the transport; no network request is issued before it. -/
inductive InitEvent
  | createTransport (key : String)
  deriving DecidableEq, Repr

/-- `OpenAIClient.__init__` (`openai_app.py`, lines 38-49): resolve the key
from the explicit parameter or the environment with Python `or` semantics,
raise if the result is falsy, otherwise build the transport handle. Returns
the outcome and the list of constructor side effects performed. -/
def mkOpenAIClient (apiKeyParam envApiKey : Option String) :
    Except ConfigError OpenAIClientState × List InitEvent :=
  match pyStrOr apiKeyParam envApiKey with
  | none => (Except.error ConfigError.missingApiKey, [])
  | some k =>
      if k == "" then (Except.error ConfigError.missingApiKey, [])
      else (Except.ok ⟨k⟩, [InitEvent.createTransport k])

/-- A failure of an underlying SDK call, carried unclassified
(the spec's `ServiceError`). -/
structure ServiceError where
  cause : String
  deriving DecidableEq, Repr

/-- What one wrapper method of `OpenAIClient` produces: the result handed to
the caller, how many times the underlying SDK endpoint was invoked, and
whether the `except` branch printed its error line before re-raising. -/
structure OpResult (α : Type) where
  result : Except ServiceError α
  underlyingCalls : Nat
  errorPrinted : Bool

/-- `OpenAIClient.chat_completion` (lines 51-83): forward the arguments to
`self.client.chat.completions.create` once; on success return its response,
on failure print and re-raise the same exception. The endpoint is the
`create` oracle; `temperature` is only forwarded, never computed with, so it
is carried as a rational. -/
def chat_completion {α : Type}
    (create : String → List Turn → Option Nat → Rat → Bool → Except ServiceError α)
    (messages : List Turn) (model : String) (maxTokens : Option Nat)
    (temperature : Rat) (stream : Bool) : OpResult α :=
  match create model messages maxTokens temperature stream with
  | Except.ok response => ⟨Except.ok response, 1, false⟩
  | Except.error e => ⟨Except.error e, 1, true⟩

/-- `OpenAIClient.text_completion` (lines 85-114): forward to
`self.client.completions.create` once; print and re-raise on failure. -/
def text_completion {α : Type}
    (create : String → String → Nat → Rat → Except ServiceError α)
    (prompt : String) (model : String) (maxTokens : Nat)
    (temperature : Rat) : OpResult α :=
  match create model prompt maxTokens temperature with
  | Except.ok response => ⟨Except.ok response, 1, false⟩
  | Except.error e => ⟨Except.error e, 1, true⟩

/-- `OpenAIClient.generate_image` (lines 116-146): forward to
`self.client.images.generate` once with the fixed model "dall-e-3"; print and
re-raise on failure. -/
def generate_image {α : Type}
    (generate : String → String → Nat → String → String → Except ServiceError α)
    (prompt : String) (n : Nat) (size : String) (quality : String) : OpResult α :=
  match generate "dall-e-3" prompt n size quality with
  | Except.ok response => ⟨Except.ok response, 1, false⟩
  | Except.error e => ⟨Except.error e, 1, true⟩

/-- `OpenAIClient.get_embeddings` (lines 148-171): forward to
`self.client.embeddings.create` once; print and re-raise on failure. -/
def get_embeddings {α : Type}
    (create : String → String → Except ServiceError α)
    (text : String) (model : String) : OpResult α :=
  match create model text with
  | Except.ok response => ⟨Except.ok response, 1, false⟩
  | Except.error e => ⟨Except.error e, 1, true⟩

/-- Observable outcome of one whole run of `interactive_chat`:
whether an exception escaped the function (none can, its body is wrapped in a
catch-all `except`), whether the outer handler printed its
"Failed to initialize chat" line, and the loop's final state and call
history when the loop ran at all. -/
structure InteractiveResult where
  crashed : Bool
  initFailureEmitted : Bool
  finalState : Option SessionState
  callResults : List ChatResult
  deriving DecidableEq, Repr

/-- `interactive_chat` (`openai_examples.py`, lines 110-145): construct the
client—if that raises, the outer `except` catches, prints the initialization
failure and returns normally—otherwise run the loop over the given input
lines. Per-call failures are already absorbed inside `step`, so no exception
ever escapes the function. -/
def interactive_chat (apiKeyParam envApiKey : Option String)
    (oracle : List Turn → ChatResult) (inputs : List String) :
    InteractiveResult :=
  match (mkOpenAIClient apiKeyParam envApiKey).fst with
  | Except.error _ => ⟨false, true, none, []⟩
  | Except.ok _ =>
      let r := runTrace oracle inputs ⟨Mode.Active, initialConversation⟩ []
      ⟨false, false, some r.fst, r.snd⟩

/-- Oracle that always succeeds with a fixed reply. -/
def okOracle : List Turn → ChatResult := fun _ => ChatResult.ok "ok"

/-- Oracle that always fails with a fixed message. -/
def errOracle : List Turn → ChatResult := fun _ => ChatResult.err "boom"

/-- Oracle that succeeds exactly when the dispatched conversation has three
turns, used to exhibit a failure followed by a success and a later failure. -/
def cexOracle : List Turn → ChatResult := fun conv =>
  if conv.length == 3 then ChatResult.ok "hi" else ChatResult.err "boom"

/-- A line matching `clear` cannot also match a quit command. -/
theorem isQuitCmd_eq_false_of_isClearCmd (s : String)
    (h : isClearCmd s = true) : isQuitCmd s = false := by
  have h' : pyLower s = "clear" := by
    simpa [isClearCmd] using h
  simp [isQuitCmd, h']

/-- The empty line matches no quit command. -/
theorem isQuitCmd_empty : isQuitCmd "" = false := by decide

/-- The empty line does not match `clear`. -/
theorem isClearCmd_empty : isClearCmd "" = false := by decide

/-- In `Terminated` mode the loop has exited: input is not processed. -/
theorem step_terminated (oracle : List Turn → ChatResult) (conv : List Turn)
    (input : String) :
    step oracle ⟨Mode.Terminated, conv⟩ input
      = ⟨⟨Mode.Terminated, conv⟩, none, none, none⟩ := rfl

/-- A quit command breaks out of the loop, touching nothing else. -/
theorem step_quit (oracle : List Turn → ChatResult) (conv : List Turn)
    (input : String) (h : isQuitCmd (pyStrip input) = true) :
    step oracle ⟨Mode.Active, conv⟩ input
      = ⟨⟨Mode.Terminated, conv⟩, none, none, none⟩ := by
  simp [step, h]

/-- The clear command resets the conversation to the initial one. -/
theorem step_clear (oracle : List Turn → ChatResult) (conv : List Turn)
    (input : String) (h : isClearCmd (pyStrip input) = true) :
    step oracle ⟨Mode.Active, conv⟩ input
      = ⟨⟨Mode.Active, initialConversation⟩, none, none, none⟩ := by
  have hq : isQuitCmd (pyStrip input) = false :=
    isQuitCmd_eq_false_of_isClearCmd _ h
  simp [step, hq, h]

/-- A line that strips to nothing is ignored. -/
theorem step_blank (oracle : List Turn → ChatResult) (conv : List Turn)
    (input : String) (h : pyStrip input = "") :
    step oracle ⟨Mode.Active, conv⟩ input
      = ⟨⟨Mode.Active, conv⟩, none, none, none⟩ := by
  simp [step, h, isQuitCmd_empty, isClearCmd_empty]

/-- A chat line whose remote call succeeds appends the user turn and the
assistant turn and emits the reply. -/
theorem step_chat_ok (oracle : List Turn → ChatResult) (conv : List Turn)
    (input reply : String) (hne : pyStrip input ≠ "")
    (hq : isQuitCmd (pyStrip input) = false)
    (hc : isClearCmd (pyStrip input) = false)
    (hok : oracle (appendTurn conv ⟨Role.user, pyStrip input⟩)
      = ChatResult.ok reply) :
    step oracle ⟨Mode.Active, conv⟩ input
      = ⟨⟨Mode.Active, appendTurn (appendTurn conv ⟨Role.user, pyStrip input⟩)
            ⟨Role.assistant, reply⟩⟩,
          some (ChatResult.ok reply), some reply, none⟩ := by
  have hne' : (pyStrip input == "") = false := beq_eq_false_iff_ne.mpr hne
  simp [step, hq, hc, hne', hok]

/-- A chat line whose remote call fails appends only the user turn and emits
the error. -/
theorem step_chat_err (oracle : List Turn → ChatResult) (conv : List Turn)
    (input msg : String) (hne : pyStrip input ≠ "")
    (hq : isQuitCmd (pyStrip input) = false)
    (hc : isClearCmd (pyStrip input) = false)
    (herr : oracle (appendTurn conv ⟨Role.user, pyStrip input⟩)
      = ChatResult.err msg) :
    step oracle ⟨Mode.Active, conv⟩ input
      = ⟨⟨Mode.Active, appendTurn conv ⟨Role.user, pyStrip input⟩⟩,
          some (ChatResult.err msg), none, some msg⟩ := by
  have hne' : (pyStrip input == "") = false := beq_eq_false_iff_ne.mpr hne
  simp [step, hq, hc, hne', herr]

/-- Unfolding of `runTrace` on a first input line. -/
theorem runTrace_cons (oracle : List Turn → ChatResult) (i : String)
    (rest : List String) (st : SessionState) (acc : List ChatResult) :
    runTrace oracle (i :: rest) st acc
      = runTrace oracle rest (step oracle st i).state
          (acc ++ (step oracle st i).callResult.toList) := rfl

/-- Once terminated, a run over any further input changes nothing. -/
theorem runTrace_terminated (oracle : List Turn → ChatResult)
    (inputs : List String) (conv : List Turn) (acc : List ChatResult) :
    runTrace oracle inputs ⟨Mode.Terminated, conv⟩ acc
      = (⟨Mode.Terminated, conv⟩, acc) := by
  induction inputs generalizing acc with
  | nil => rfl
  | cons i rest ih => simp [runTrace_cons, step_terminated, ih]

/-- Role counting distributes over concatenation. -/
theorem countRole_append (r : Role) (l1 l2 : List Turn) :
    countRole r (l1 ++ l2) = countRole r l1 + countRole r l2 := by
  simp [countRole]

/-- Appending a turn of the counted role raises the count by one. -/
theorem countRole_appendTurn_same (r : Role) (conv : List Turn) (t : Turn)
    (h : t.role = r) :
    countRole r (appendTurn conv t) = countRole r conv + 1 := by
  simp [appendTurn, countRole_append, countRole, h]

/-- Appending a turn of another role leaves the count unchanged. -/
theorem countRole_appendTurn_ne (r : Role) (conv : List Turn) (t : Turn)
    (h : t.role ≠ r) :
    countRole r (appendTurn conv t) = countRole r conv := by
  simp [appendTurn, countRole_append, countRole, h]

/-- Failure counting distributes over concatenation. -/
theorem countFailures_append (l1 l2 : List ChatResult) :
    countFailures (l1 ++ l2) = countFailures l1 + countFailures l2 := by
  simp [countFailures]

/-- The initial conversation is well formed. -/
theorem transcriptWF_initial : transcriptWF initialConversation := by
  constructor
  · rfl
  · intro t ht
    simp [initialConversation] at ht

/-- Appending a non-system turn preserves transcript well-formedness. -/
theorem transcriptWF_appendTurn (conv : List Turn) (t : Turn)
    (h : transcriptWF conv) (ht : t.role ≠ Role.system) :
    transcriptWF (appendTurn conv t) := by
  obtain ⟨h1, h2⟩ := h
  cases conv with
  | nil => simp at h1
  | cons c cs =>
    refine ⟨by simpa [appendTurn] using h1, ?_⟩
    intro u hu
    simp [appendTurn] at hu
    rcases hu with hu | hu
    · exact h2 u (by simpa using hu)
    · subst hu
      exact ht

/-- One loop iteration preserves transcript well-formedness. -/
theorem step_preserves_transcriptWF (oracle : List Turn → ChatResult)
    (st : SessionState) (input : String) (h : transcriptWF st.conversation) :
    transcriptWF (step oracle st input).state.conversation := by
  obtain ⟨m, conv⟩ := st
  cases m with
  | Terminated => simpa [step_terminated] using h
  | Active =>
    by_cases hq : isQuitCmd (pyStrip input) = true
    · simpa [step_quit oracle conv input hq] using h
    · rw [Bool.not_eq_true] at hq
      by_cases hc : isClearCmd (pyStrip input) = true
      · simpa [step_clear oracle conv input hc] using transcriptWF_initial
      · rw [Bool.not_eq_true] at hc
        by_cases hne : pyStrip input = ""
        · simpa [step_blank oracle conv input hne] using h
        · cases horacle : oracle (appendTurn conv ⟨Role.user, pyStrip input⟩) with
          | ok reply =>
            rw [step_chat_ok oracle conv input reply hne hq hc horacle]
            exact transcriptWF_appendTurn _ _
              (transcriptWF_appendTurn _ _ h (by simp)) (by simp)
          | err msg =>
            rw [step_chat_err oracle conv input msg hne hq hc horacle]
            exact transcriptWF_appendTurn _ _ h (by simp)

/-- A whole run preserves transcript well-formedness. -/
theorem runTrace_preserves_transcriptWF (oracle : List Turn → ChatResult)
    (inputs : List String) (st : SessionState) (acc : List ChatResult)
    (h : transcriptWF st.conversation) :
    transcriptWF (runTrace oracle inputs st acc).fst.conversation := by
  induction inputs generalizing st acc with
  | nil => exact h
  | cons i rest ih =>
    rw [runTrace_cons]
    exact ih _ _ (step_preserves_transcriptWF oracle st i h)

/-- One non-clear iteration preserves the balance: user turns equal assistant
turns plus the failed calls recorded so far. -/
theorem step_preserves_balance (oracle : List Turn → ChatResult)
    (st : SessionState) (input : String) (acc : List ChatResult)
    (hnc : isClearCmd (pyStrip input) = false)
    (hinv : countRole Role.user st.conversation
      = countRole Role.assistant st.conversation + countFailures acc) :
    countRole Role.user (step oracle st input).state.conversation
      = countRole Role.assistant (step oracle st input).state.conversation
        + countFailures (acc ++ (step oracle st input).callResult.toList) := by
  obtain ⟨m, conv⟩ := st
  have hinv' : countRole Role.user conv
      = countRole Role.assistant conv + countFailures acc := hinv
  cases m with
  | Terminated => simpa [step_terminated] using hinv'
  | Active =>
    by_cases hq : isQuitCmd (pyStrip input) = true
    · simpa [step_quit oracle conv input hq] using hinv'
    · rw [Bool.not_eq_true] at hq
      by_cases hne : pyStrip input = ""
      · simpa [step_blank oracle conv input hne] using hinv'
      · cases horacle : oracle (appendTurn conv ⟨Role.user, pyStrip input⟩) with
        | ok reply =>
          rw [step_chat_ok oracle conv input reply hne hq hnc horacle]
          simp only [Option.toList]
          rw [countRole_appendTurn_ne Role.user
                (appendTurn conv ⟨Role.user, pyStrip input⟩)
                ⟨Role.assistant, reply⟩ (by simp),
            countRole_appendTurn_same Role.user conv
                ⟨Role.user, pyStrip input⟩ rfl,
            countRole_appendTurn_same Role.assistant
                (appendTurn conv ⟨Role.user, pyStrip input⟩)
                ⟨Role.assistant, reply⟩ rfl,
            countRole_appendTurn_ne Role.assistant conv
                ⟨Role.user, pyStrip input⟩ (by simp),
            countFailures_append]
          have hz : countFailures [ChatResult.ok reply] = 0 := rfl
          rw [hz]
          omega
        | err msg =>
          rw [step_chat_err oracle conv input msg hne hq hnc horacle]
          simp only [Option.toList]
          rw [countRole_appendTurn_same Role.user conv
                ⟨Role.user, pyStrip input⟩ rfl,
            countRole_appendTurn_ne Role.assistant conv
                ⟨Role.user, pyStrip input⟩ (by simp),
            countFailures_append]
          have ho : countFailures [ChatResult.err msg] = 1 := rfl
          rw [ho]
          omega

/-- A run with no clear command preserves the balance of user turns against
assistant turns and recorded failures. -/
theorem runTrace_preserves_balance (oracle : List Turn → ChatResult)
    (inputs : List String) (st : SessionState) (acc : List ChatResult)
    (hnc : ∀ i ∈ inputs, isClearCmd (pyStrip i) = false)
    (hinv : countRole Role.user st.conversation
      = countRole Role.assistant st.conversation + countFailures acc) :
    countRole Role.user (runTrace oracle inputs st acc).fst.conversation
      = countRole Role.assistant (runTrace oracle inputs st acc).fst.conversation
        + countFailures (runTrace oracle inputs st acc).snd := by
  induction inputs generalizing st acc with
  | nil => exact hinv
  | cons i rest ih =>
    rw [runTrace_cons]
    exact ih _ _ (fun j hj => hnc j (List.mem_cons_of_mem i hj))
      (step_preserves_balance oracle st i acc (hnc i (List.mem_cons_self i rest)) hinv)

/-- A run of chat lines against an always-succeeding oracle stays active and
adds one user turn and one assistant turn per line. -/
theorem runTrace_all_ok_counts (oracle : List Turn → ChatResult)
    (inputs : List String) (conv : List Turn)
    (hok : ∀ c, (oracle c).isOk = true)
    (hin : ∀ i ∈ inputs, pyStrip i ≠ "" ∧ isQuitCmd (pyStrip i) = false
      ∧ isClearCmd (pyStrip i) = false) :
    ∀ acc : List ChatResult,
      (runTrace oracle inputs ⟨Mode.Active, conv⟩ acc).fst.mode = Mode.Active
      ∧ countRole Role.user
          (runTrace oracle inputs ⟨Mode.Active, conv⟩ acc).fst.conversation
        = countRole Role.user conv + inputs.length
      ∧ countRole Role.assistant
          (runTrace oracle inputs ⟨Mode.Active, conv⟩ acc).fst.conversation
        = countRole Role.assistant conv + inputs.length := by
  induction inputs generalizing conv with
  | nil => intro acc; exact ⟨rfl, by simp [runTrace], by simp [runTrace]⟩
  | cons i rest ih =>
    intro acc
    obtain ⟨hne, hq, hc⟩ := hin i (List.mem_cons_self i rest)
    have hin' : ∀ j ∈ rest, pyStrip j ≠ "" ∧ isQuitCmd (pyStrip j) = false
        ∧ isClearCmd (pyStrip j) = false :=
      fun j hj => hin j (List.mem_cons_of_mem i hj)
    cases horacle : oracle (appendTurn conv ⟨Role.user, pyStrip i⟩) with
    | ok reply =>
      have hstep := step_chat_ok oracle conv i reply hne hq hc horacle
      rw [runTrace_cons]
      simp only [hstep, Option.toList]
      have h := ih
        (appendTurn (appendTurn conv ⟨Role.user, pyStrip i⟩) ⟨Role.assistant, reply⟩)
        hin' (acc ++ [ChatResult.ok reply])
      refine ⟨h.1, ?_, ?_⟩
      · rw [h.2.1,
          countRole_appendTurn_ne Role.user
            (appendTurn conv ⟨Role.user, pyStrip i⟩)
            ⟨Role.assistant, reply⟩ (by simp),
          countRole_appendTurn_same Role.user conv ⟨Role.user, pyStrip i⟩ rfl]
        simp only [List.length_cons]
        omega
      · rw [h.2.2,
          countRole_appendTurn_same Role.assistant
            (appendTurn conv ⟨Role.user, pyStrip i⟩)
            ⟨Role.assistant, reply⟩ rfl,
          countRole_appendTurn_ne Role.assistant conv
            ⟨Role.user, pyStrip i⟩ (by simp)]
        simp only [List.length_cons]
        omega
    | err msg =>
      have := hok (appendTurn conv ⟨Role.user, pyStrip i⟩)
      rw [horacle] at this
      simp [ChatResult.isOk] at this

/-- Any iteration whose input is not a clear command leaves the old
conversation in place as a prefix, only ever appending at the end. -/
theorem step_extends_of_not_clear (oracle : List Turn → ChatResult)
    (st : SessionState) (input : String)
    (hc : isClearCmd (pyStrip input) = false) :
    ∃ ts, (step oracle st input).state.conversation = st.conversation ++ ts := by
  obtain ⟨m, conv⟩ := st
  cases m with
  | Terminated => exact ⟨[], by simp [step_terminated]⟩
  | Active =>
    by_cases hq : isQuitCmd (pyStrip input) = true
    · exact ⟨[], by simp [step_quit oracle conv input hq]⟩
    · rw [Bool.not_eq_true] at hq
      by_cases hne : pyStrip input = ""
      · exact ⟨[], by simp [step_blank oracle conv input hne]⟩
      · cases horacle : oracle (appendTurn conv ⟨Role.user, pyStrip input⟩) with
        | ok reply =>
          exact ⟨[⟨Role.user, pyStrip input⟩, ⟨Role.assistant, reply⟩],
            by simp [step_chat_ok oracle conv input reply hne hq hc horacle, appendTurn]⟩
        | err msg =>
          exact ⟨[⟨Role.user, pyStrip input⟩],
            by simp [step_chat_err oracle conv input msg hne hq hc horacle, appendTurn]⟩

/-- Any iteration either extends the conversation at the end or
wholesale-resets it to the initial one. -/
theorem step_extends_or_resets (oracle : List Turn → ChatResult)
    (st : SessionState) (input : String) :
    (∃ ts, (step oracle st input).state.conversation = st.conversation ++ ts)
    ∨ (step oracle st input).state.conversation = initialConversation := by
  by_cases hc : isClearCmd (pyStrip input) = true
  · obtain ⟨m, conv⟩ := st
    cases m with
    | Terminated => exact Or.inl ⟨[], by simp [step_terminated]⟩
    | Active => exact Or.inr (by simp [step_clear oracle conv input hc])
  · rw [Bool.not_eq_true] at hc
    exact Or.inl (step_extends_of_not_clear oracle st input hc)

/-- A well-formed transcript holds exactly one system turn. -/
theorem countRole_system_of_WF (conv : List Turn) (h : transcriptWF conv) :
    countRole Role.system conv = 1 := by
  obtain ⟨h1, h2⟩ := h
  cases conv with
  | nil => simp at h1
  | cons c cs =>
    have hc : c = systemTurn := by simpa using h1
    subst hc
    have hz : countRole Role.system cs = 0 := by
      have hnil : List.filter (fun t => t.role == Role.system) cs = [] := by
        rw [List.filter_eq_nil_iff]
        intro t ht
        simp [h2 t (by simpa using ht)]
      simp [countRole, hnil]
    rw [show (systemTurn :: cs) = [systemTurn] ++ cs from rfl,
      countRole_append, hz]
    rfl

/-- With a falsy resolved key, construction raises before the transport
handle is built. -/
theorem mkOpenAIClient_absent (param env : Option String)
    (h : pyFalsy (pyStrOr param env) = true) :
    mkOpenAIClient param env = (Except.error ConfigError.missingApiKey, []) := by
  unfold mkOpenAIClient
  cases hk : pyStrOr param env with
  | none => rfl
  | some s =>
    rw [hk] at h
    simp only [pyFalsy] at h
    simp [h]

/-- With a truthy resolved key, construction succeeds and builds the
transport handle over that key. -/
theorem mkOpenAIClient_present (param env : Option String) (k : String)
    (hk : pyStrOr param env = some k) (hne : k ≠ "") :
    mkOpenAIClient param env
      = (Except.ok ⟨k⟩, [InitEvent.createTransport k]) := by
  have hne' : (k == "") = false := beq_eq_false_iff_ne.mpr hne
  unfold mkOpenAIClient
  rw [hk]
  simp [hne']

/-- No exception ever escapes `interactive_chat`: its whole body sits inside
a catch-all handler. -/
theorem interactive_chat_never_crashes (param env : Option String)
    (oracle : List Turn → ChatResult) (inputs : List String) :
    (interactive_chat param env oracle inputs).crashed = false := by
  unfold interactive_chat
  cases h : (mkOpenAIClient param env).fst <;> simp

/-- When the credential is absent, `interactive_chat` catches the
construction error, reports it, and never starts the loop. -/
theorem interactive_chat_init_failure (param env : Option String)
    (oracle : List Turn → ChatResult) (inputs : List String)
    (h : pyFalsy (pyStrOr param env) = true) :
    interactive_chat param env oracle inputs = ⟨false, true, none, []⟩ := by
  unfold interactive_chat
  rw [mkOpenAIClient_absent param env h]

/-- C1 (amended): when the remote call for a non-empty, non-command input
fails, the transcript keeps that input's user turn, gains no assistant turn
for it, the error message is emitted and the session stays active; over any
clear-free run from session start, the user-turn count exceeds the
assistant-turn count by exactly the total number of failed exchanges
recorded since session start. -/
theorem C1_chat_failure_keeps_user_turn (oracle : List Turn → ChatResult)
    (conv : List Turn) (input msg : String) (inputs : List String)
    (hne : pyStrip input ≠ "")
    (hq : isQuitCmd (pyStrip input) = false)
    (hc : isClearCmd (pyStrip input) = false)
    (herr : oracle (appendTurn conv ⟨Role.user, pyStrip input⟩)
      = ChatResult.err msg)
    (hnoclear : ∀ i ∈ inputs, isClearCmd (pyStrip i) = false) :
    (step oracle ⟨Mode.Active, conv⟩ input).state.conversation
        = appendTurn conv ⟨Role.user, pyStrip input⟩
    ∧ countRole Role.assistant
        (step oracle ⟨Mode.Active, conv⟩ input).state.conversation
        = countRole Role.assistant conv
    ∧ (step oracle ⟨Mode.Active, conv⟩ input).emittedAssistant = none
    ∧ (step oracle ⟨Mode.Active, conv⟩ input).emittedError = some msg
    ∧ (step oracle ⟨Mode.Active, conv⟩ input).state.mode = Mode.Active
    ∧ countRole Role.user
        (runTrace oracle inputs ⟨Mode.Active, initialConversation⟩ []).fst.conversation
        = countRole Role.assistant
            (runTrace oracle inputs ⟨Mode.Active, initialConversation⟩ []).fst.conversation
          + countFailures
              (runTrace oracle inputs ⟨Mode.Active, initialConversation⟩ []).snd := by
  have hstep := step_chat_err oracle conv input msg hne hq hc herr
  refine ⟨by rw [hstep], ?_, by rw [hstep], by rw [hstep], by rw [hstep], ?_⟩
  · rw [hstep]
    exact countRole_appendTurn_ne Role.assistant conv
      ⟨Role.user, pyStrip input⟩ (by simp)
  · exact runTrace_preserves_balance oracle inputs
      ⟨Mode.Active, initialConversation⟩ [] hnoclear (by decide)

/-- C1 witness: a concrete failing exchange and a concrete clear-free run
against the always-failing oracle. -/
theorem C1_witness :
    (step errOracle ⟨Mode.Active, [systemTurn]⟩ "hi").state.conversation
        = appendTurn [systemTurn] ⟨Role.user, pyStrip "hi"⟩
    ∧ (step errOracle ⟨Mode.Active, [systemTurn]⟩ "hi").emittedError = some "boom"
    ∧ countRole Role.user
        (runTrace errOracle ["a", "b"] ⟨Mode.Active, initialConversation⟩ []).fst.conversation
        = countRole Role.assistant
            (runTrace errOracle ["a", "b"] ⟨Mode.Active, initialConversation⟩ []).fst.conversation
          + countFailures
              (runTrace errOracle ["a", "b"] ⟨Mode.Active, initialConversation⟩ []).snd := by
  have h := C1_chat_failure_keeps_user_turn errOracle [systemTurn] "hi" "boom"
    ["a", "b"] (by decide) (by decide) (by decide) rfl (by decide)
  exact ⟨h.1, h.2.2.2.1, h.2.2.2.2.2⟩

/-- C1 counterexample: after the run `fail, success, fail` the deficit of
assistant turns is two, the failures consecutive since the last success are
one, so the claim's "consecutive failures since the last success" count is
wrong even in a state reached by a failing exchange. -/
theorem C1_counterexample :
    (runTrace cexOracle ["a", "b", "c"] ⟨Mode.Active, initialConversation⟩ []).snd.getLast?
        = some (ChatResult.err "boom")
    ∧ countRole Role.user
        (runTrace cexOracle ["a", "b", "c"] ⟨Mode.Active, initialConversation⟩ []).fst.conversation
        ≠ countRole Role.assistant
            (runTrace cexOracle ["a", "b", "c"] ⟨Mode.Active, initialConversation⟩ []).fst.conversation
          + consecFailuresSinceLastSuccess
              (runTrace cexOracle ["a", "b", "c"] ⟨Mode.Active, initialConversation⟩ []).snd := by
  decide

/-- C2: every state reachable from session start carries the fixed system
turn first and no other system turn; one iteration only ever appends at the
end or wholesale-resets to the initial transcript; an iteration on a
non-clear input never resets; and the append operation yields exactly the old
transcript followed by the new turn, touching no prior entry. -/
theorem C2_transcript_append_only (oracle : List Turn → ChatResult)
    (inputs : List String) (st : SessionState) (input : String)
    (T : List Turn) (t : Turn) :
    transcriptWF
      (runTrace oracle inputs ⟨Mode.Active, initialConversation⟩ []).fst.conversation
    ∧ ((∃ ts, (step oracle st input).state.conversation = st.conversation ++ ts)
        ∨ (step oracle st input).state.conversation = initialConversation)
    ∧ (isClearCmd (pyStrip input) = false →
        ∃ ts, (step oracle st input).state.conversation = st.conversation ++ ts)
    ∧ appendTurn T t = T ++ [t] :=
  ⟨runTrace_preserves_transcriptWF oracle inputs _ [] transcriptWF_initial,
    step_extends_or_resets oracle st input,
    fun hc => step_extends_of_not_clear oracle st input hc,
    rfl⟩

/-- C2 witness: the invariant at a concrete run and the append equation at a
concrete transcript. -/
theorem C2_witness :
    appendTurn [systemTurn] ⟨Role.user, "hi"⟩
        = [systemTurn] ++ [⟨Role.user, "hi"⟩]
    ∧ ∃ ts, (step okOracle ⟨Mode.Active, [systemTurn]⟩ "hello").state.conversation
        = [systemTurn] ++ ts := by
  have h := C2_transcript_append_only okOracle [] ⟨Mode.Active, [systemTurn]⟩
    "hello" [systemTurn] ⟨Role.user, "hi"⟩
  exact ⟨h.2.2.2, h.2.2.1 (by decide)⟩

/-- C3: a clear command, matched case-insensitively on the stripped line,
resets the transcript to exactly the one original system turn, whatever its
prior length, and the session stays active. -/
theorem C3_clear_resets (oracle : List Turn → ChatResult) (conv : List Turn)
    (input : String) (hclear : isClearCmd (pyStrip input) = true) :
    (step oracle ⟨Mode.Active, conv⟩ input).state.conversation
        = initialConversation
    ∧ initialConversation = [systemTurn]
    ∧ (step oracle ⟨Mode.Active, conv⟩ input).state.conversation.length = 1
    ∧ (step oracle ⟨Mode.Active, conv⟩ input).state.mode = Mode.Active := by
  have h := step_clear oracle conv input hclear
  exact ⟨by rw [h], rfl, by rw [h]; rfl, by rw [h]⟩

/-- C3 witness: ` CLEAR ` resets a three-turn transcript. -/
theorem C3_witness :
    (step okOracle
        ⟨Mode.Active, [systemTurn, ⟨Role.user, "x"⟩, ⟨Role.assistant, "y"⟩]⟩
        " CLEAR ").state.conversation = [systemTurn]
    ∧ (step okOracle
        ⟨Mode.Active, [systemTurn, ⟨Role.user, "x"⟩, ⟨Role.assistant, "y"⟩]⟩
        " CLEAR ").state.mode = Mode.Active := by
  have h := C3_clear_resets okOracle
    [systemTurn, ⟨Role.user, "x"⟩, ⟨Role.assistant, "y"⟩] " CLEAR " (by decide)
  exact ⟨h.1.trans h.2.1, h.2.2.2⟩

/-- C4: a quit command, matched case-insensitively, terminates the session
without touching the transcript, making no remote call and emitting nothing;
and from a terminated state a run over any further input accepts and
processes none of it. -/
theorem C4_quit_terminates (oracle : List Turn → ChatResult) (conv : List Turn)
    (input : String) (inputs : List String) (acc : List ChatResult)
    (hquit : isQuitCmd (pyStrip input) = true) :
    step oracle ⟨Mode.Active, conv⟩ input
        = ⟨⟨Mode.Terminated, conv⟩, none, none, none⟩
    ∧ runTrace oracle inputs ⟨Mode.Terminated, conv⟩ acc
        = (⟨Mode.Terminated, conv⟩, acc) :=
  ⟨step_quit oracle conv input hquit,
    runTrace_terminated oracle inputs conv acc⟩

/-- C4 witness: `QUIT`, `Exit` and `q` all terminate, and a terminated
session ignores further input. -/
theorem C4_witness :
    step okOracle ⟨Mode.Active, [systemTurn]⟩ "QUIT"
        = ⟨⟨Mode.Terminated, [systemTurn]⟩, none, none, none⟩
    ∧ step okOracle ⟨Mode.Active, [systemTurn]⟩ "Exit"
        = ⟨⟨Mode.Terminated, [systemTurn]⟩, none, none, none⟩
    ∧ step okOracle ⟨Mode.Active, [systemTurn]⟩ "q"
        = ⟨⟨Mode.Terminated, [systemTurn]⟩, none, none, none⟩
    ∧ runTrace okOracle ["later"] ⟨Mode.Terminated, [systemTurn]⟩ []
        = (⟨Mode.Terminated, [systemTurn]⟩, []) :=
  ⟨(C4_quit_terminates okOracle [systemTurn] "QUIT" ["later"] [] (by decide)).1,
    (C4_quit_terminates okOracle [systemTurn] "Exit" ["later"] [] (by decide)).1,
    (C4_quit_terminates okOracle [systemTurn] "q" ["later"] [] (by decide)).1,
    (C4_quit_terminates okOracle [systemTurn] "QUIT" ["later"] [] (by decide)).2⟩

/-- C5: an input that strips to the empty string appends no turn, makes no
remote call, emits nothing, and leaves the active session unchanged. -/
theorem C5_blank_input_ignored (oracle : List Turn → ChatResult)
    (conv : List Turn) (input : String) (hblank : pyStrip input = "") :
    step oracle ⟨Mode.Active, conv⟩ input
      = ⟨⟨Mode.Active, conv⟩, none, none, none⟩ :=
  step_blank oracle conv input hblank

/-- C5 witness: a line of spaces is ignored. -/
theorem C5_witness :
    step okOracle ⟨Mode.Active, [systemTurn]⟩ "   "
      = ⟨⟨Mode.Active, [systemTurn]⟩, none, none, none⟩ :=
  C5_blank_input_ignored okOracle [systemTurn] "   " (by decide)

/-- C6: a run of non-command, non-empty inputs from session start in which
every exchange succeeds ends with exactly one user turn and one assistant
turn per input, next to the single system turn. -/
theorem C6_success_counts (oracle : List Turn → ChatResult)
    (inputs : List String)
    (hok : ∀ c, (oracle c).isOk = true)
    (hin : ∀ i ∈ inputs, pyStrip i ≠ "" ∧ isQuitCmd (pyStrip i) = false
      ∧ isClearCmd (pyStrip i) = false) :
    countRole Role.user
        (runTrace oracle inputs ⟨Mode.Active, initialConversation⟩ []).fst.conversation
      = inputs.length
    ∧ countRole Role.assistant
        (runTrace oracle inputs ⟨Mode.Active, initialConversation⟩ []).fst.conversation
      = inputs.length
    ∧ countRole Role.system
        (runTrace oracle inputs ⟨Mode.Active, initialConversation⟩ []).fst.conversation
      = 1 := by
  have h := runTrace_all_ok_counts oracle inputs initialConversation hok hin []
  have hwf := runTrace_preserves_transcriptWF oracle inputs
    ⟨Mode.Active, initialConversation⟩ [] transcriptWF_initial
  have hu : countRole Role.user initialConversation = 0 := rfl
  have ha : countRole Role.assistant initialConversation = 0 := rfl
  refine ⟨?_, ?_, countRole_system_of_WF _ hwf⟩
  · rw [h.2.1, hu]
    omega
  · rw [h.2.2, ha]
    omega

/-- C6 witness: two successful exchanges give two user and two assistant
turns. -/
theorem C6_witness :
    countRole Role.user
        (runTrace okOracle ["hi", "there"] ⟨Mode.Active, initialConversation⟩ []).fst.conversation
      = 2
    ∧ countRole Role.assistant
        (runTrace okOracle ["hi", "there"] ⟨Mode.Active, initialConversation⟩ []).fst.conversation
      = 2 := by
  have h := C6_success_counts okOracle ["hi", "there"]
    (fun c => rfl) (by decide)
  exact ⟨h.1, h.2.1⟩

/-- C7: when the key resolved from the explicit parameter and the process
environment is absent, construction fails with the configuration error and
performs no constructor side effect at all—in particular the transport handle
capable of network activity is never built; when a non-empty key resolves,
construction succeeds. -/
theorem C7_missing_credential (param env : Option String) :
    (pyFalsy (pyStrOr param env) = true →
      mkOpenAIClient param env = (Except.error ConfigError.missingApiKey, []))
    ∧ ∀ k : String, pyStrOr param env = some k → k ≠ "" →
      mkOpenAIClient param env
        = (Except.ok ⟨k⟩, [InitEvent.createTransport k]) :=
  ⟨mkOpenAIClient_absent param env,
    fun k hk hne => mkOpenAIClient_present param env k hk hne⟩

/-- C7 witness: no key anywhere fails; an explicit key succeeds. -/
theorem C7_witness :
    mkOpenAIClient none none = (Except.error ConfigError.missingApiKey, [])
    ∧ mkOpenAIClient (some "sk-test") none
        = (Except.ok ⟨"sk-test"⟩, [InitEvent.createTransport "sk-test"]) :=
  ⟨(C7_missing_credential none none).1 (by decide),
    (C7_missing_credential (some "sk-test") none).2 "sk-test" (by decide)
      (by decide)⟩

/-- C8 (amended): no exception ever escapes `interactive_chat`—a failed
remote call is reported per turn and the loop continues active—while a
configuration failure is caught by the function's own top-level handler,
which reports the initialization failure and returns without the loop ever
starting, so the process exits normally instead of crashing. -/
theorem C8_no_crash (param env : Option String)
    (oracle : List Turn → ChatResult) (inputs : List String)
    (conv : List Turn) (input msg : String)
    (hne : pyStrip input ≠ "")
    (hq : isQuitCmd (pyStrip input) = false)
    (hc : isClearCmd (pyStrip input) = false)
    (herr : oracle (appendTurn conv ⟨Role.user, pyStrip input⟩)
      = ChatResult.err msg) :
    (interactive_chat param env oracle inputs).crashed = false
    ∧ (step oracle ⟨Mode.Active, conv⟩ input).emittedError = some msg
    ∧ (step oracle ⟨Mode.Active, conv⟩ input).state.mode = Mode.Active
    ∧ (pyFalsy (pyStrOr param env) = true →
        interactive_chat param env oracle inputs = ⟨false, true, none, []⟩) := by
  have hstep := step_chat_err oracle conv input msg hne hq hc herr
  exact ⟨interactive_chat_never_crashes param env oracle inputs,
    by rw [hstep], by rw [hstep],
    fun h => interactive_chat_init_failure param env oracle inputs h⟩

/-- C8 witness: a concrete run with no credential and an always-failing
oracle. -/
theorem C8_witness :
    (interactive_chat none none errOracle ["hi"]).crashed = false
    ∧ (step errOracle ⟨Mode.Active, [systemTurn]⟩ "hi").emittedError
        = some "boom"
    ∧ interactive_chat none none errOracle ["hi"] = ⟨false, true, none, []⟩ := by
  have h := C8_no_crash none none errOracle ["hi"] [systemTurn] "hi" "boom"
    (by decide) (by decide) (by decide) rfl
  exact ⟨h.1, h.2.1, h.2.2.2 (by decide)⟩

/-- C8 counterexample: with the credential absent, `interactive_chat`
reports the initialization failure and returns normally—no uncaught error
escapes, contradicting the claim that a configuration failure crashes the
process. -/
theorem C8_counterexample :
    (interactive_chat none none errOracle ["hi"]).initFailureEmitted = true
    ∧ (interactive_chat none none errOracle ["hi"]).crashed = false := by
  constructor
  · rfl
  · rfl

/-- C9: each of the four client operations hands the caller exactly the
underlying endpoint's outcome—in particular any failure unchanged—and invokes
the endpoint exactly once, so nothing is retried, reinterpreted or
replaced. -/
theorem C9_failures_propagate_unchanged {α β γ δ : Type}
    (chatCreate : String → List Turn → Option Nat → Rat → Bool → Except ServiceError α)
    (textCreate : String → String → Nat → Rat → Except ServiceError β)
    (imageCreate : String → String → Nat → String → String → Except ServiceError γ)
    (embedCreate : String → String → Except ServiceError δ)
    (messages : List Turn) (cmodel : String) (maxTokens : Option Nat)
    (ctemp : Rat) (stream : Bool)
    (prompt tmodel : String) (tmax : Nat) (ttemp : Rat)
    (iprompt : String) (n : Nat) (size quality : String)
    (text emodel : String) :
    ((chat_completion chatCreate messages cmodel maxTokens ctemp stream).result
        = chatCreate cmodel messages maxTokens ctemp stream
      ∧ (chat_completion chatCreate messages cmodel maxTokens ctemp stream).underlyingCalls = 1)
    ∧ ((text_completion textCreate prompt tmodel tmax ttemp).result
        = textCreate tmodel prompt tmax ttemp
      ∧ (text_completion textCreate prompt tmodel tmax ttemp).underlyingCalls = 1)
    ∧ ((generate_image imageCreate iprompt n size quality).result
        = imageCreate "dall-e-3" iprompt n size quality
      ∧ (generate_image imageCreate iprompt n size quality).underlyingCalls = 1)
    ∧ ((get_embeddings embedCreate text emodel).result
        = embedCreate emodel text
      ∧ (get_embeddings embedCreate text emodel).underlyingCalls = 1) := by
  refine ⟨⟨?_, ?_⟩, ⟨?_, ?_⟩, ⟨?_, ?_⟩, ?_, ?_⟩
  · cases h : chatCreate cmodel messages maxTokens ctemp stream <;>
      simp [chat_completion, h]
  · cases h : chatCreate cmodel messages maxTokens ctemp stream <;>
      simp [chat_completion, h]
  · cases h : textCreate tmodel prompt tmax ttemp <;>
      simp [text_completion, h]
  · cases h : textCreate tmodel prompt tmax ttemp <;>
      simp [text_completion, h]
  · cases h : imageCreate "dall-e-3" iprompt n size quality <;>
      simp [generate_image, h]
  · cases h : imageCreate "dall-e-3" iprompt n size quality <;>
      simp [generate_image, h]
  · cases h : embedCreate emodel text <;> simp [get_embeddings, h]
  · cases h : embedCreate emodel text <;> simp [get_embeddings, h]

/-- C10: a line whose stripped form is non-empty and not exactly a command
word is ordinary chat input—the session stays active, the transcript keeps
its old turns and gains the user turn, and the full conversation is
dispatched to the remote service—even when the line contains a command word
among other text. -/
theorem C10_whole_line_commands (oracle : List Turn → ChatResult)
    (conv : List Turn) (input : String)
    (hne : pyStrip input ≠ "")
    (hq : isQuitCmd (pyStrip input) = false)
    (hc : isClearCmd (pyStrip input) = false) :
    (step oracle ⟨Mode.Active, conv⟩ input).state.mode = Mode.Active
    ∧ (step oracle ⟨Mode.Active, conv⟩ input).callResult
        = some (oracle (appendTurn conv ⟨Role.user, pyStrip input⟩))
    ∧ ∃ ts, (step oracle ⟨Mode.Active, conv⟩ input).state.conversation
        = appendTurn conv ⟨Role.user, pyStrip input⟩ ++ ts := by
  cases horacle : oracle (appendTurn conv ⟨Role.user, pyStrip input⟩) with
  | ok reply =>
    have hstep := step_chat_ok oracle conv input reply hne hq hc horacle
    exact ⟨by rw [hstep], by rw [hstep],
      ⟨[⟨Role.assistant, reply⟩], by rw [hstep]; rfl⟩⟩
  | err msg =>
    have hstep := step_chat_err oracle conv input msg hne hq hc horacle
    exact ⟨by rw [hstep], by rw [hstep],
      ⟨[], by rw [hstep]; simp⟩⟩

/-- C10 witness: `quit now` and `please clear` are chat input, not
commands. -/
theorem C10_witness :
    (step okOracle ⟨Mode.Active, [systemTurn]⟩ "quit now").state.mode
        = Mode.Active
    ∧ (step okOracle ⟨Mode.Active, [systemTurn]⟩ "quit now").callResult
        = some (okOracle (appendTurn [systemTurn] ⟨Role.user, pyStrip "quit now"⟩))
    ∧ (step okOracle ⟨Mode.Active, [systemTurn]⟩ "please clear").state.mode
        = Mode.Active := by
  have h1 := C10_whole_line_commands okOracle [systemTurn] "quit now"
    (by decide) (by decide) (by decide)
  have h2 := C10_whole_line_commands okOracle [systemTurn] "please clear"
    (by decide) (by decide) (by decide)
  exact ⟨h1.1, h1.2.1, h2.1⟩

end OpenAIQuick
